import Mathlib

/-!
A verification development for the notebook-combining pipeline of
`bookbook/latex.py`.

The Python module combines a list of Jupyter notebooks into a single
notebook (`combine_notebooks`), inserting a Latex `\label` cell after each
chapter heading (`add_sec_label`), and then hands the combined notebook to
an nbconvert exporter (`export`).  `combine_and_convert` globs the chapter
files and sorts them by filename before combining.

The embedding below models:

* notebook cells (`Cell`) and notebooks (`Notebook`) with the fields the
  code reads: `cell_type`, `metadata`, `source`, `cells`;
* Python string helpers restricted to what the code uses:
  `str.splitlines` (`pySplitlines`, modelling only the `'\n'` line
  terminator, the only one the pipeline produces), the join of lines
  (`joinLines`), `str.startswith` (`startsWithStr`), `str.strip`
  (`pyStrip`), and `pathlib.Path(...).stem` (`pathStem`);
* the functions `add_sec_label`, `combine_notebooks`,
  `combine_and_convert` and the configuration part of `export`
  (`export_setup`).

Fallible Python code is modelled with `Except`: `add_sec_label` can raise
`NoHeader` (`ExtractErr.noHeader`) or an `IndexError` from the unguarded
`lines[0]` access (`ExtractErr.indexError`); `combine_notebooks` re-raises
`NoHeader` with the filename in the message and lets `IndexError`
propagate.  File reading (`nbformat.read`) and directory globbing
(`source_dir.glob`) are external collaborators: `combine_notebooks` takes
the already-read `(filename, notebook)` pairs and `combine_and_convert`
takes the list of matched filenames (in arbitrary enumeration order) and a
reading function.
-/

namespace Bookbook

/-- Notebook metadata mappings are modelled as association lists; the code
only ever copies them and tests them for emptiness (Python truthiness of a
dict). -/
abbrev Meta := List (String × String)

/-- A notebook cell, with the fields `latex.py` reads or writes. -/
structure Cell where
  cell_type : String
  metadata : Meta
  source : String
deriving DecidableEq, Repr

/-- A notebook: an ordered cell list plus document metadata. -/
structure Notebook where
  cells : List Cell
  metadata : Meta
deriving DecidableEq, Repr

/-- Python `nbformat.v4.new_notebook()`: no cells, empty metadata. -/
def new_notebook : Notebook := { cells := [], metadata := [] }

/-- Python `nbformat.v4.new_markdown_cell(source)`: a markdown cell with
empty (default) metadata. -/
def new_markdown_cell (source : String) : Cell :=
  { cell_type := "markdown", metadata := [], source := source }

/-- The `new_latex_cell` helper of `latex.py`: a raw cell whose metadata
marks it as Latex. -/
def new_latex_cell (source : String) : Cell :=
  { cell_type := "raw", metadata := [("raw_mimetype", "text/latex")], source := source }

/-- Splits a character list at every occurrence of `sep`; the separator is
dropped.  Never returns `[]`. -/
def splitOnChar (sep : Char) : List Char → List (List Char)
  | [] => [[]]
  | c :: rest =>
    if c = sep then [] :: splitOnChar sep rest
    else
      match splitOnChar sep rest with
      | [] => [[c]]
      | p :: ps => (c :: p) :: ps

/-- Python `str.splitlines()`, restricted to the `'\n'` terminator (the only
one this pipeline produces): split at every `'\n'`, and drop the trailing
empty piece left by a final `'\n'` (so the empty string yields `[]`). -/
def pySplitlines (s : String) : List String :=
  let parts := (splitOnChar '\n' s.toList).map fun cs => (⟨cs⟩ : String)
  if parts.getLast? = some "" then parts.dropLast else parts

/-- Python joining of lines with `'\n'` between them. -/
def joinLines : List String → String
  | [] => ""
  | [l] => l
  | l :: ls => l ++ "\n" ++ joinLines ls

/-- Python `s.startswith(pre)`. -/
def startsWithStr (pre s : String) : Bool :=
  pre.toList.isPrefixOf s.toList

/-- Python `str.strip()` whitespace test (the ASCII whitespace characters
Python strips). -/
def isPyWhitespace (c : Char) : Bool :=
  c = ' ' || c = '\t' || c = '\n' || c = '\r' || c = '\x0b' || c = '\x0c'

/-- Python `s.strip()`: drop leading and trailing whitespace. -/
def pyStrip (s : String) : String :=
  ⟨((s.toList.dropWhile isPyWhitespace).reverse.dropWhile isPyWhitespace).reverse⟩

/-- Index of the last occurrence of `c` in a character list. -/
def lastIdxOf (c : Char) : List Char → Option Nat
  | [] => none
  | x :: xs =>
    match lastIdxOf c xs with
    | some i => some (i + 1)
    | none => if x = c then some 0 else none

/-- Python `pathlib.Path(p).stem`: the final path component without its
last suffix.  Following `pathlib`, the suffix is only removed when the last
dot is neither the first nor the last character of the name. -/
def pathStem (p : String) : String :=
  let name := ((splitOnChar '/' p.toList).map fun cs => (⟨cs⟩ : String)).getLastD p
  let cs := name.toList
  match lastIdxOf '.' cs with
  | some i => if 0 < i ∧ i < cs.length - 1 then (⟨cs.take i⟩ : String) else name
  | none => name

/-- How an `add_sec_label` call can fail: `raise NoHeader`, or the
`IndexError` from the unguarded `lines[0]` access when the source splits
into zero lines. -/
inductive ExtractErr where
  | noHeader
  | indexError
deriving DecidableEq, Repr

/-- The `add_sec_label` function of `latex.py`.  Takes the first cell of a
notebook and the notebook name; detects the chapter heading (a line 1
starting `"# "`, or else a line 2 starting `"==="`), and returns the
heading-only markdown cell (keeping the original cell's metadata), a raw
Latex cell `\label{sec:<nbname>}`, and, when non-blank text remains after
the heading, a markdown cell with that remainder.  The `cell_type` check in
the source only logs a critical message and does not change the result, so
it has no counterpart here. -/
def add_sec_label (cell : Cell) (nbname : String) : Except ExtractErr (List Cell) :=
  let lines := pySplitlines cell.source
  match lines with
  | [] => .error .indexError
  | line0 :: restLines =>
    let headerLineCount : Option Nat :=
      if startsWithStr "# " line0 then some 1
      else
        match restLines with
        | line1 :: _ => if startsWithStr "===" line1 then some 2 else none
        | [] => none
    match headerLineCount with
    | none => .error .noHeader
    | some header_lines =>
      let allLines := line0 :: restLines
      let header := joinLines (allLines.take header_lines)
      let intro_remainder := pyStrip (joinLines (allLines.drop header_lines))
      let res : List Cell :=
        [{ new_markdown_cell header with metadata := cell.metadata },
         new_latex_cell ("\\label\x7bsec:" ++ nbname ++ "\x7d")]
      .ok (if intro_remainder = "" then res else res ++ [new_markdown_cell intro_remainder])

/-- How `combine_notebooks` can fail: the re-raised
`NoHeader(f"Failed to find header in {filename}")`, or a propagated
`IndexError` (from `nb.cells[0]` on a cell-less notebook or from
`add_sec_label` on an empty source). -/
inductive CombineErr where
  | noHeader (msg : String)
  | indexError
deriving DecidableEq, Repr

/-- The loop body of `combine_notebooks`, with the accumulator notebook
explicit.  For each `(filename, notebook)` pair it extends the combined
cells with `add_sec_label(nb.cells[0], filename.stem)` and then with
`nb.cells[1:]`, and then, if the combined metadata is still empty, assigns
this notebook's metadata. -/
def combineGo : List (String × Notebook) → Notebook → Except CombineErr Notebook
  | [], combined_nb => .ok combined_nb
  | (filename, nb) :: rest, combined_nb =>
    match nb.cells with
    | [] => .error .indexError
    | c0 :: cs =>
      match add_sec_label c0 (pathStem filename) with
      | .error .noHeader => .error (.noHeader ("Failed to find header in " ++ filename))
      | .error .indexError => .error .indexError
      | .ok sec =>
        let nb1 : Notebook := { combined_nb with cells := combined_nb.cells ++ sec ++ cs }
        let nb2 : Notebook :=
          if nb1.metadata.isEmpty then { nb1 with metadata := nb.metadata } else nb1
        combineGo rest nb2

/-- The `combine_notebooks` function of `latex.py`, over already-read
`(filename, notebook)` pairs (`nbformat.read` is an external collaborator). -/
def combine_notebooks (notebook_files : List (String × Notebook)) : Except CombineErr Notebook :=
  combineGo notebook_files new_notebook

/-- String comparison used by Python `sorted` on the matched filenames:
lexicographic order on the character sequences. -/
def strLe (a b : String) : Bool := decide (a ≤ b)

/-- Python `sorted(...)` on the matched filenames. -/
def sortedStrings (l : List String) : List String := l.mergeSort strLe

/-- The chapter-selection part of `combine_and_convert`:
`sorted(source_dir.glob(files_pattern))` followed by `combine_notebooks`.
`globResult` is the list of matched filenames in the (arbitrary) order the
directory scan yields them, and `read` models `nbformat.read`. -/
def combine_and_convert (globResult : List String) (read : String → Notebook) :
    Except CombineErr Notebook :=
  combine_notebooks ((sortedStrings globResult).map fun f => (f, read f))

/-- The three tag sets `export` hands to the `TagRemovePreprocessor`
configuration. -/
structure TagRemoveConfig where
  remove_cell_tags : List String
  remove_all_outputs_tags : List String
  remove_input_tags : List String
deriving DecidableEq, Repr

/-- The exporter configuration assembled by `export` in `latex.py`. -/
structure ExporterSetup where
  tagRemove : TagRemoveConfig
  preprocessors : List String
  usePdf : Bool
  template_file : Option String
deriving DecidableEq, Repr

/-- The configuration-assembly part of the `export` function of `latex.py`
(`export` is a Lean keyword, hence the name).  Each tag-set parameter is
`none` when the caller does not supply it, in which case the Python default
argument applies: `('hidden', 'remove_cell')`, `('hidden', 'remove_output')`
and `('hidden', 'remove_input')` respectively.  The resulting values are
assigned to `c.TagRemovePreprocessor.*` and handed to the
`TagRemovePreprocessor`. -/
def export_setup (pdf : Bool) (template_file : Option String)
    (remove_cell_tags remove_all_outputs_tags remove_input_tags : Option (List String)) :
    ExporterSetup :=
  { tagRemove :=
      { remove_cell_tags := remove_cell_tags.getD ["hidden", "remove_cell"],
        remove_all_outputs_tags := remove_all_outputs_tags.getD ["hidden", "remove_output"],
        remove_input_tags := remove_input_tags.getD ["hidden", "remove_input"] },
    preprocessors := ["nbconvert.preprocessors.TagRemovePreprocessor"],
    usePdf := pdf,
    template_file := template_file }

/-- Decidable equality for `Except`, so that concrete runs of the model can
be checked by `decide`. -/
instance exceptDecEq (ε α : Type) [DecidableEq ε] [DecidableEq α] :
    DecidableEq (Except ε α) := fun x y =>
  match x, y with
  | .ok a, .ok b =>
    if h : a = b then .isTrue (h ▸ rfl) else .isFalse (fun he => h (Except.ok.inj he))
  | .ok _, .error _ => .isFalse (fun he => Except.noConfusion he)
  | .error _, .ok _ => .isFalse (fun he => Except.noConfusion he)
  | .error e, .error f =>
    if h : e = f then .isTrue (h ▸ rfl) else .isFalse (fun he => h (Except.error.inj he))

/-- The extractor output as the spec's §4.2 step 3 and §8 describe it: a
heading-only markdown unit keeping the original unit's metadata, the Latex
label unit `sec:<nbname>`, and, when non-blank text remains after the
heading, a markdown unit with that remainder and default (empty) metadata.
The heading is line 1 when it starts with `"# "`, lines 1-2 otherwise. -/
def specSecUnits (cell : Cell) (nbname : String) : List Cell :=
  let lines := pySplitlines cell.source
  let n : Nat := if startsWithStr "# " (lines.headD "") then 1 else 2
  let header := joinLines (lines.take n)
  let rem := pyStrip (joinLines (lines.drop n))
  { new_markdown_cell header with metadata := cell.metadata } ::
    new_latex_cell ("\\label\x7bsec:" ++ nbname ++ "\x7d") ::
    (if rem = "" then [] else [new_markdown_cell rem])

/-- The cells one chapter contributes to the combined document, as the
spec's §8 describes them: the extractor units for the first cell, then the
chapter's remaining cells unchanged. -/
def specChapterUnits (filename : String) (nb : Notebook) : List Cell :=
  match nb.cells with
  | [] => []
  | c0 :: cs => specSecUnits c0 (pathStem filename) ++ cs

/-- A chapter whose first unit exists and extracts successfully. -/
def chapterOk (p : String × Notebook) : Bool :=
  match p.2.cells with
  | [] => false
  | c0 :: _ => (add_sec_label c0 (pathStem p.1)).isOk

/-- The first non-empty metadata mapping in a list, or the empty mapping. -/
def firstNonEmptyMeta : List Meta → Meta
  | [] => []
  | m :: ms => if m.isEmpty then firstNonEmptyMeta ms else m

/-- Projects the heading cell's source out of an extractor result. -/
def headingSource? : Except ExtractErr (List Cell) → Option String
  | .ok (c :: _) => some c.source
  | _ => none

/-- Demonstration chapter: ATX heading, intro remainder, a second cell,
empty notebook metadata. -/
def chIntro : String × Notebook :=
  ("01-intro.ipynb",
   { cells := [{ cell_type := "markdown", metadata := [("tags", "keep")],
                 source := "# Introduction\n\nWelcome to the book." },
               { cell_type := "code", metadata := [], source := "print(1)" }],
     metadata := [] })

/-- Demonstration chapter: setext heading, non-empty notebook metadata. -/
def chDetails : String × Notebook :=
  ("02-details.ipynb",
   { cells := [{ cell_type := "markdown", metadata := [], source := "Details\n===" }],
     metadata := [("title", "Book")] })

/-- Demonstration chapter whose first cell has no recognizable heading. -/
def chBroken : String × Notebook :=
  ("03-broken.ipynb",
   { cells := [{ cell_type := "markdown", metadata := [], source := "no heading here" }],
     metadata := [] })

/-- A first cell whose line 1 is an ATX heading and whose line 2 is a
setext underline. -/
def cellAtx : Cell := { cell_type := "markdown", metadata := [], source := "# A\n===" }

/-- A first cell with empty source. -/
def cellEmpty : Cell := { cell_type := "markdown", metadata := [], source := "" }

/-- Demonstration `nbformat.read`: resolves the two demo filenames. -/
def demoRead (f : String) : Notebook :=
  if f = "01-intro.ipynb" then chIntro.2
  else if f = "02-details.ipynb" then chDetails.2
  else new_notebook

/-- The combined document for `[chIntro, chDetails]`, spelled out. -/
def demoOut : Notebook :=
  { cells :=
      [{ cell_type := "markdown", metadata := [("tags", "keep")], source := "# Introduction" },
       { cell_type := "raw", metadata := [("raw_mimetype", "text/latex")],
         source := "\\label\x7bsec:01-intro\x7d" },
       { cell_type := "markdown", metadata := [], source := "Welcome to the book." },
       { cell_type := "code", metadata := [], source := "print(1)" },
       { cell_type := "markdown", metadata := [], source := "Details\n===" },
       { cell_type := "raw", metadata := [("raw_mimetype", "text/latex")],
         source := "\\label\x7bsec:02-details\x7d" }],
    metadata := [("title", "Book")] }

/-- A successful `add_sec_label` run returns exactly the cells the spec
describes. -/
lemma add_sec_label_ok_shape {cell : Cell} {nbname : String} {res : List Cell}
    (h : add_sec_label cell nbname = .ok res) : res = specSecUnits cell nbname := by
  unfold add_sec_label at h
  unfold specSecUnits
  cases hl : pySplitlines cell.source with
  | nil => rw [hl] at h; exact absurd h (by simp)
  | cons line0 restLines =>
    rw [hl] at h
    by_cases h0 : startsWithStr "# " line0
    · by_cases hrem : pyStrip (joinLines restLines) = "" <;>
        simp_all [joinLines]
    · cases restLines with
      | nil => simp [h0] at h
      | cons line1 t =>
        by_cases h1 : startsWithStr "===" line1
        · by_cases hrem : pyStrip (joinLines t) = "" <;>
            simp_all [joinLines]
        · simp [h0, h1] at h

/-- Unpacking a successful chapter: a first cell exists and extracts. -/
lemma chapterOk_elim {f : String} {nb : Notebook} (h : chapterOk (f, nb) = true) :
    ∃ c0 cs sec, nb.cells = c0 :: cs ∧ add_sec_label c0 (pathStem f) = .ok sec := by
  unfold chapterOk at h
  cases hc : nb.cells with
  | nil => rw [hc] at h; simp at h
  | cons c0 cs =>
    rw [hc] at h
    have h' : (add_sec_label c0 (pathStem f)).isOk = true := by simpa using h
    cases hs : add_sec_label c0 (pathStem f) with
    | ok sec => exact ⟨c0, cs, sec, rfl, hs⟩
    | error e => rw [hs] at h'; simp [Except.isOk, Except.toBool] at h'

/-- One successful step of the combine loop, with the accumulator update
made explicit. -/
lemma combineGo_cons_ok {f : String} {nb : Notebook} {c0 : Cell} {cs : List Cell}
    {sec : List Cell} (rest : List (String × Notebook)) (acc : Notebook)
    (hc : nb.cells = c0 :: cs) (hs : add_sec_label c0 (pathStem f) = .ok sec) :
    combineGo ((f, nb) :: rest) acc =
      combineGo rest
        { cells := acc.cells ++ sec ++ cs,
          metadata := if acc.metadata.isEmpty then nb.metadata else acc.metadata } := by
  simp only [combineGo, hc, hs]
  by_cases hm : acc.metadata.isEmpty <;> simp [hm]

/-- When every chapter extracts successfully, the combine loop succeeds,
appends each chapter's spec-described units in order, and ends with the
first non-empty metadata it sees. -/
lemma combineGo_ok (files : List (String × Notebook)) :
    ∀ acc : Notebook, (∀ p ∈ files, chapterOk p = true) →
    ∃ out, combineGo files acc = .ok out ∧
      out.cells = acc.cells ++ (files.map fun p => specChapterUnits p.1 p.2).flatten ∧
      out.metadata = (if acc.metadata.isEmpty
        then firstNonEmptyMeta (files.map fun p => p.2.metadata)
        else acc.metadata) := by
  induction files with
  | nil =>
    intro acc _
    exact ⟨acc, rfl, by simp, by cases hm : acc.metadata <;> simp [hm, firstNonEmptyMeta]⟩
  | cons p rest ih =>
    intro acc hall
    obtain ⟨f, nb⟩ := p
    obtain ⟨c0, cs, sec, hc, hs⟩ := chapterOk_elim (hall _ (List.mem_cons_self _ _))
    rw [combineGo_cons_ok rest acc hc hs]
    obtain ⟨out, hout, hcells, hmeta⟩ :=
      ih { cells := acc.cells ++ sec ++ cs,
           metadata := if acc.metadata.isEmpty then nb.metadata else acc.metadata }
        (fun q hq => hall q (List.mem_cons_of_mem _ hq))
    refine ⟨out, hout, ?_, ?_⟩
    · rw [hcells]
      simp [specChapterUnits, hc, ← add_sec_label_ok_shape hs]
    · rw [hmeta]
      by_cases hm : acc.metadata.isEmpty <;> by_cases hn : nb.metadata.isEmpty <;>
        simp_all [firstNonEmptyMeta]

/-- Whenever the combine loop succeeds, the resulting metadata is the first
non-empty metadata among the accumulator and the chapters, in order. -/
lemma combineGo_metadata (files : List (String × Notebook)) :
    ∀ (acc out : Notebook), combineGo files acc = .ok out →
    out.metadata = (if acc.metadata.isEmpty
      then firstNonEmptyMeta (files.map fun p => p.2.metadata)
      else acc.metadata) := by
  induction files with
  | nil =>
    intro acc out h
    simp only [combineGo, Except.ok.injEq] at h
    subst h
    cases hm : acc.metadata <;> simp [hm, firstNonEmptyMeta]
  | cons p rest ih =>
    intro acc out h
    obtain ⟨f, nb⟩ := p
    cases hc : nb.cells with
    | nil => simp [combineGo, hc] at h
    | cons c0 cs =>
      cases hs : add_sec_label c0 (pathStem f) with
      | error e => cases e <;> simp [combineGo, hc, hs] at h
      | ok sec =>
        rw [combineGo_cons_ok rest acc hc hs] at h
        have hmeta := ih _ _ h
        by_cases hm : acc.metadata.isEmpty <;> by_cases hn : nb.metadata.isEmpty <;>
          simp_all [firstNonEmptyMeta]

/-- When every chapter before a header-less chapter extracts successfully,
the combine loop stops at the header-less chapter with the re-raised
`NoHeader` naming its file. -/
lemma combineGo_noheader (pre : List (String × Notebook)) :
    ∀ (acc : Notebook) (f : String) (nb : Notebook) (post : List (String × Notebook))
      (c0 : Cell) (cs : List Cell),
      (∀ p ∈ pre, chapterOk p = true) →
      nb.cells = c0 :: cs →
      add_sec_label c0 (pathStem f) = .error .noHeader →
      combineGo (pre ++ (f, nb) :: post) acc
        = .error (.noHeader ("Failed to find header in " ++ f)) := by
  induction pre with
  | nil =>
    intro acc f nb post c0 cs _ hc hs
    simp [combineGo, hc, hs]
  | cons p rest ih =>
    intro acc f nb post c0 cs hall hc hs
    obtain ⟨g, mb⟩ := p
    obtain ⟨d0, ds, sec, hcg, hsg⟩ := chapterOk_elim (hall _ (List.mem_cons_self _ _))
    rw [List.cons_append, combineGo_cons_ok _ _ hcg hsg]
    exact ih _ f nb post c0 cs (fun q hq => hall q (List.mem_cons_of_mem _ hq)) hc hs

/-- The sorted filename list is a permutation of the matched filenames. -/
lemma sortedStrings_perm (l : List String) : (sortedStrings l).Perm l :=
  List.mergeSort_perm l strLe

/-- The sorted filename list is sorted in lexicographic order. -/
lemma sortedStrings_sorted (l : List String) : (sortedStrings l).Sorted (· ≤ ·) := by
  have htrans : ∀ (a b c : String), strLe a b → strLe b c → strLe a c := by
    intro a b c hab hbc
    simp only [strLe, decide_eq_true_eq] at *
    exact le_trans hab hbc
  have htotal : ∀ (a b : String), strLe a b || strLe b a := by
    intro a b
    simp only [strLe, Bool.or_eq_true, decide_eq_true_eq]
    exact le_total a b
  have h := List.sorted_mergeSort htrans htotal l
  refine h.imp ?_
  intro a b hab
  simpa [strLe] using hab

/-- Sorting is canonical: any two enumeration orders of the same matched
files sort to the same list. -/
lemma sortedStrings_eq_of_perm {l l' : List String} (h : l.Perm l') :
    sortedStrings l = sortedStrings l' :=
  List.eq_of_perm_of_sorted
    ((sortedStrings_perm l).trans (h.trans (sortedStrings_perm l').symm))
    (sortedStrings_sorted l) (sortedStrings_sorted l')

/-- Claim C1: for every chapter list in which every chapter's first unit
extracts successfully (has a valid heading), the combined document's unit
sequence is, for each chapter in order, the heading unit, the label unit
named `sec:<chapter-stem>`, the intro-remainder unit when non-blank text
followed the heading, and then that chapter's units 2..N unchanged and in
order — i.e. the flattening of `specChapterUnits` over the chapters. -/
theorem combine_units_shape (files : List (String × Notebook))
    (h : ∀ p ∈ files, chapterOk p = true) :
    ∃ out, combine_notebooks files = .ok out ∧
      out.cells = (files.map fun p => specChapterUnits p.1 p.2).flatten := by
  obtain ⟨out, h1, h2, _⟩ := combineGo_ok files new_notebook h
  exact ⟨out, h1, by simpa [new_notebook] using h2⟩

/-- Witness for C1 at the two demo chapters. -/
theorem combine_units_shape_witness :
    (∀ p ∈ [chIntro, chDetails], chapterOk p = true) ∧
    (∃ out, combine_notebooks [chIntro, chDetails] = .ok out ∧
      out.cells = ([chIntro, chDetails].map fun p => specChapterUnits p.1 p.2).flatten) :=
  ⟨by decide, combine_units_shape [chIntro, chDetails] (by decide)⟩

/-- Claim C2 counterexample: with a first chapter whose metadata is empty
and a second chapter whose metadata is not, the combined metadata is the
second chapter's, not the first chapter's — the first assignment does not
win and later chapters do backfill. -/
theorem first_chapter_metadata_counterexample :
    (combine_notebooks [chIntro, chDetails]).toOption.map Notebook.metadata
      = some [("title", "Book")] ∧
    chIntro.2.metadata = [] ∧
    some [("title", "Book")] ≠ some chIntro.2.metadata := by decide

/-- Claim C2 as amended: the combined document's metadata is not frozen at
the first chapter's value; it is the metadata of the first chapter in
processing order whose metadata is non-empty (empty when all are empty),
so a later chapter's non-empty metadata fills in for earlier empty ones. -/
theorem combined_metadata_backfills (files : List (String × Notebook))
    (h : ∀ p ∈ files, chapterOk p = true) :
    ∃ out, combine_notebooks files = .ok out ∧
      out.metadata = firstNonEmptyMeta (files.map fun p => p.2.metadata) := by
  obtain ⟨out, h1, _, h3⟩ := combineGo_ok files new_notebook h
  exact ⟨out, h1, by simpa [new_notebook] using h3⟩

/-- Witness for the amended C2 at the two demo chapters. -/
theorem combined_metadata_backfills_witness :
    (∀ p ∈ [chIntro, chDetails], chapterOk p = true) ∧
    (∃ out, combine_notebooks [chIntro, chDetails] = .ok out ∧
      out.metadata = firstNonEmptyMeta ([chIntro, chDetails].map fun p => p.2.metadata)) :=
  ⟨by decide, combined_metadata_backfills [chIntro, chDetails] (by decide)⟩

/-- Claim C3: whenever combining succeeds, the combined document's
metadata equals the metadata of the first chapter in processing order
whose metadata is non-empty (the metadata of every later chapter is
discarded), and is empty when no chapter has non-empty metadata. -/
theorem combined_metadata_first_nonempty (files : List (String × Notebook))
    (out : Notebook) (h : combine_notebooks files = .ok out) :
    out.metadata = firstNonEmptyMeta (files.map fun p => p.2.metadata) := by
  have hm := combineGo_metadata files new_notebook out h
  simpa [new_notebook] using hm

/-- Witness for C3 at the two demo chapters. -/
theorem combined_metadata_first_nonempty_witness :
    combine_notebooks [chIntro, chDetails] = .ok demoOut ∧
    demoOut.metadata = firstNonEmptyMeta ([chIntro, chDetails].map fun p => p.2.metadata) :=
  ⟨by decide, combined_metadata_first_nonempty [chIntro, chDetails] demoOut (by decide)⟩

/-- Claim C4: heading detection tries the two forms in order.  When line 1
of the first unit's source starts with `"# "`, the heading is line 1 only
— for every possible line 2, so in particular an ATX line 1 over a `"==="`
line 2 yields a one-line heading.  Otherwise, when there are at least two
lines and line 2 starts with `"==="`, the heading is lines 1 and 2.
Otherwise extraction fails with `NoHeader`. -/
theorem heading_detection (cell : Cell) (nbname line0 : String)
    (restLines : List String)
    (h : pySplitlines cell.source = line0 :: restLines) :
    (startsWithStr "# " line0 = true →
      headingSource? (add_sec_label cell nbname) = some line0) ∧
    (startsWithStr "# " line0 = false →
      ∀ line1 t, restLines = line1 :: t → startsWithStr "===" line1 = true →
        headingSource? (add_sec_label cell nbname) = some (line0 ++ "\n" ++ line1)) ∧
    (startsWithStr "# " line0 = false →
      (∀ line1 t, restLines = line1 :: t → startsWithStr "===" line1 = false) →
      add_sec_label cell nbname = .error .noHeader) := by
  refine ⟨?_, ?_, ?_⟩
  · intro h0
    simp only [add_sec_label, h, h0, if_true]
    split <;> simp [headingSource?, joinLines, new_markdown_cell]
  · intro h0 line1 t ht h1
    subst ht
    simp only [add_sec_label, h, h0, h1, if_true, Bool.false_eq_true, if_false]
    split <;> simp [headingSource?, joinLines, new_markdown_cell]
  · intro h0 hno
    cases restLines with
    | nil => simp [add_sec_label, h, h0]
    | cons line1 t => simp [add_sec_label, h, h0, hno line1 t rfl]

/-- Witness for C4 at the "in particular" input: an ATX line 1 above a
`"==="` line 2 still yields the one-line heading. -/
theorem heading_detection_witness :
    pySplitlines cellAtx.source = ["# A", "==="] ∧
    startsWithStr "# " "# A" = true ∧
    headingSource? (add_sec_label cellAtx "ch") = some "# A" :=
  ⟨by decide, by decide,
   (heading_detection cellAtx "ch" "# A" ["==="] (by decide)).1 (by decide)⟩

/-- Claim C5: on success, extraction returns exactly the units
`specSecUnits` describes: the heading-only markdown unit first, carrying
the original first unit's metadata, then the label unit, then a remainder
unit if and only if non-blank text remains after the heading lines, that
remainder unit carrying default (empty) metadata. -/
theorem heading_split_cells (cell : Cell) (nbname : String) (res : List Cell)
    (h : add_sec_label cell nbname = .ok res) :
    res = specSecUnits cell nbname ∧
    (specSecUnits cell nbname).head?.map Cell.metadata = some cell.metadata := by
  refine ⟨add_sec_label_ok_shape h, ?_⟩
  simp [specSecUnits, new_markdown_cell]

/-- Witness for C5 at the ATX demo cell. -/
theorem heading_split_cells_witness :
    add_sec_label cellAtx "ch" = .ok (specSecUnits cellAtx "ch") ∧
    (specSecUnits cellAtx "ch").head?.map Cell.metadata = some cellAtx.metadata :=
  ⟨by decide, (heading_split_cells cellAtx "ch" (specSecUnits cellAtx "ch") (by decide)).2⟩

/-- Claim C6: when a chapter's first unit lacks both supported heading
forms (and every chapter before it extracts), combining fails with the
`NoHeader`-class error whose message names that chapter's filename, and no
combined document is produced. -/
theorem combine_noheader_names_file (pre post : List (String × Notebook))
    (f : String) (nb : Notebook) (c0 : Cell) (cs : List Cell)
    (hpre : ∀ p ∈ pre, chapterOk p = true)
    (hc : nb.cells = c0 :: cs)
    (hbad : add_sec_label c0 (pathStem f) = .error .noHeader) :
    combine_notebooks (pre ++ (f, nb) :: post)
      = .error (.noHeader ("Failed to find header in " ++ f)) ∧
    ∀ out, combine_notebooks (pre ++ (f, nb) :: post) ≠ .ok out := by
  have h : combine_notebooks (pre ++ (f, nb) :: post)
      = .error (.noHeader ("Failed to find header in " ++ f)) :=
    combineGo_noheader pre new_notebook f nb post c0 cs hpre hc hbad
  exact ⟨h, fun out hok => by rw [h] at hok; exact Except.noConfusion hok⟩

/-- Witness for C6: a heading-less middle chapter aborts the combination
with its filename in the message. -/
theorem combine_noheader_names_file_witness :
    combine_notebooks ([chIntro] ++ ("03-broken.ipynb", chBroken.2) :: [chDetails])
      = .error (.noHeader ("Failed to find header in " ++ "03-broken.ipynb")) :=
  (combine_noheader_names_file [chIntro] [chDetails] "03-broken.ipynb" chBroken.2
    { cell_type := "markdown", metadata := [], source := "no heading here" } []
    (by decide) (by decide) (by decide)).1

/-- Claim C7: the chapters appearing in the combined document are exactly
the matched files, in strictly lexicographic filename order, independent
of the order the directory listing yields them: the sorted list is a
permutation of the matched files, it is sorted, any enumeration order
sorts to the same list, and the combined document lists the chapters'
units in that sorted order. -/
theorem chapters_sorted_lex (globResult globResult' : List String)
    (read : String → Notebook)
    (hperm : globResult.Perm globResult')
    (hok : ∀ f ∈ globResult, chapterOk (f, read f) = true) :
    (sortedStrings globResult).Perm globResult ∧
    (sortedStrings globResult).Sorted (· ≤ ·) ∧
    sortedStrings globResult = sortedStrings globResult' ∧
    ∃ out, combine_and_convert globResult read = .ok out ∧
      out.cells = ((sortedStrings globResult).map fun f =>
        specChapterUnits f (read f)).flatten := by
  refine ⟨sortedStrings_perm _, sortedStrings_sorted _, sortedStrings_eq_of_perm hperm, ?_⟩
  have hall : ∀ p ∈ (sortedStrings globResult).map (fun f => (f, read f)),
      chapterOk p = true := by
    intro p hp
    obtain ⟨f, hf, rfl⟩ := List.mem_map.mp hp
    exact hok f ((sortedStrings_perm globResult).mem_iff.mp hf)
  obtain ⟨out, h1, h2, _⟩ := combineGo_ok _ new_notebook hall
  refine ⟨out, h1, ?_⟩
  rw [h2]
  simp only [new_notebook, List.map_map, List.nil_append]
  rfl

/-- Witness for C7: two enumeration orders of the two demo files sort to
the same lexicographic list. -/
theorem chapters_sorted_lex_witness :
    List.Perm ["02-details.ipynb", "01-intro.ipynb"] ["01-intro.ipynb", "02-details.ipynb"] ∧
    sortedStrings ["02-details.ipynb", "01-intro.ipynb"]
      = sortedStrings ["01-intro.ipynb", "02-details.ipynb"] :=
  ⟨List.Perm.swap "01-intro.ipynb" "02-details.ipynb" [],
   (chapters_sorted_lex ["02-details.ipynb", "01-intro.ipynb"]
      ["01-intro.ipynb", "02-details.ipynb"] demoRead
      (List.Perm.swap "01-intro.ipynb" "02-details.ipynb" []) (by decide)).2.2.1⟩

/-- Claim C8: with zero matched files, combining raises no error and
returns the empty combined document: no content units and empty
metadata. -/
theorem empty_match_empty_document (read : String → Notebook) :
    combine_and_convert [] read = .ok new_notebook ∧
    new_notebook.cells = [] ∧ new_notebook.metadata = [] := by
  refine ⟨?_, rfl, rfl⟩
  simp [combine_and_convert, sortedStrings, combine_notebooks, combineGo]

/-- Claim C9: when the caller supplies no tag sets, `export` defaults them
to `("hidden", "remove_cell")`, `("hidden", "remove_output")` and
`("hidden", "remove_input")`, and exactly these values are placed in the
`TagRemovePreprocessor` configuration. -/
theorem export_default_tag_sets (pdf : Bool) (template_file : Option String) :
    (export_setup pdf template_file none none none).tagRemove =
      { remove_cell_tags := ["hidden", "remove_cell"],
        remove_all_outputs_tags := ["hidden", "remove_output"],
        remove_input_tags := ["hidden", "remove_input"] } := rfl

/-- Claim C10: a first unit whose source is empty splits into zero lines,
and the unguarded `lines[0]` access means extraction fails with the
out-of-range `IndexError`, not with the `NoHeader` condition. -/
theorem empty_source_index_error (cell : Cell) (nbname : String)
    (h : cell.source = "") :
    pySplitlines cell.source = [] ∧
    add_sec_label cell nbname = .error .indexError ∧
    add_sec_label cell nbname ≠ .error .noHeader := by
  have hl : pySplitlines cell.source = [] := by rw [h]; rfl
  have ha : add_sec_label cell nbname = .error .indexError := by
    simp [add_sec_label, hl]
  exact ⟨hl, ha, by rw [ha]; simp⟩

/-- Witness for C10 at the empty-source demo cell. -/
theorem empty_source_index_error_witness :
    cellEmpty.source = "" ∧
    add_sec_label cellEmpty "04-empty" = .error .indexError :=
  ⟨rfl, (empty_source_index_error cellEmpty "04-empty" rfl).2.1⟩

end Bookbook
